import Mathlib

/-!
Verification of the ESP32-S3 display dashboard diagnostic harness
(monitoring scripts and stress tests), shallowly embedded in Lean.

Sources embedded here:
- scripts/monitor-telnet.py    (TelnetMonitor.reader_thread)
- tests/tools/monitoring/telnet_monitor.py  (TelnetMonitor.monitor)
- scripts/monitor-errors.py    (ErrorMonitor rule table, analyze_line,
  handle_critical_error)
- tests/python/comprehensive_stress_test.py (StressTester)
- tests/tools/monitoring/monitor_device_health.py (DeviceHealthMonitor)
- tests/tools/diagnostics/debug_freeze.py (test_single_endpoint_repeated)
-/

namespace Spec2Proof

/-! ## Byte-stream line reassembly

`scripts/monitor-telnet.py`, `TelnetMonitor.reader_thread` (lines 145-172):
the socket data is appended to a string buffer; every complete
newline-terminated line is split off, stripped of carriage returns on both
ends (Python `line.strip('\r')`), and emitted when non-empty; the trailing
fragment stays in the buffer for the next read.  We model decoded text
chunks as lists of characters. -/

/-- Drop characters satisfying `p` from both ends of a list
(Python `str.strip` with a fixed character set). -/
def stripBoth (p : Char → Bool) (l : List Char) : List Char :=
  ((l.dropWhile p).reverse.dropWhile p).reverse

/-- Python `line.strip('\r')`: remove leading and trailing carriage returns. -/
def stripCR (l : List Char) : List Char :=
  stripBoth (fun c => c == '\r') l

/-- Python whitespace test used by bare `str.strip()` (ASCII part). -/
def pyIsSpace (c : Char) : Bool :=
  c == ' ' || c == '\t' || c == '\n' || c == '\r' || c == '\x0b' || c == '\x0c'

/-- Python bare `line.strip()`. -/
def pyStrip (l : List Char) : List Char :=
  stripBoth pyIsSpace l

/-- Split a buffer at every newline: first component is the list of complete
(newline-terminated) lines in order, second the trailing fragment that has no
terminating newline yet.  This is the effect of the
`while '\n' in buffer: line, buffer = buffer.split('\n', 1)` loop. -/
def splitNl : List Char → List (List Char) × List Char
  | [] => ([], [])
  | c :: rest =>
    let p := splitNl rest
    if c = '\n' then ([] :: p.1, p.2)
    else
      match p.1 with
      | [] => ([], c :: p.2)
      | l :: ls => ((c :: l) :: ls, p.2)

/-- Lines actually put on the queue by `reader_thread`: each complete line is
CR-stripped and dropped if empty. -/
def emitLines (ls : List (List Char)) : List (List Char) :=
  (ls.map stripCR).filter (fun l => !l.isEmpty)

/-- One `recv` iteration of `reader_thread`: state is (buffer, emitted so
far); the chunk is appended to the buffer and all complete lines are
extracted. -/
def readerStep (st : List Char × List (List Char)) (chunk : List Char) :
    List Char × List (List Char) :=
  let p := splitNl (st.1 ++ chunk)
  (p.2, st.2 ++ emitLines p.1)

/-- Feeding a whole sequence of chunks to `reader_thread`, starting from the
empty buffer; result is the sequence of emitted lines. -/
def readerRun (chunks : List (List Char)) : List (List Char) :=
  (chunks.foldl readerStep ([], [])).2

/-- The complete lines of an unchunked stream, CR-stripped and
empty-filtered. -/
def linesOfStream (s : List Char) : List (List Char) :=
  emitLines (splitNl s).1

/-! The monitoring-tools reader,
`tests/tools/monitoring/telnet_monitor.py`, `TelnetMonitor.monitor`
(lines 117-133): each received chunk is decoded and split on newlines
immediately — `data.decode(...).split('\n')` — every piece (including the
trailing fragment) is whitespace-stripped and processed if non-empty.
No partial fragment is carried over to the next read. -/

/-- Python `s.split('\n')`: all pieces, including the final fragment (which
is `""` when the string ends in a newline). -/
def splitAllNl : List Char → List (List Char)
  | [] => [[]]
  | c :: rest =>
    let ls := splitAllNl rest
    if c = '\n' then [] :: ls
    else
      match ls with
      | [] => [[c]]
      | l :: tl => (c :: l) :: tl

/-- Lines processed from one chunk by `TelnetMonitor.monitor`. -/
def monitorChunkLines (chunk : List Char) : List (List Char) :=
  ((splitAllNl chunk).map pyStrip).filter (fun l => !l.isEmpty)

/-- Feeding a sequence of chunks to `TelnetMonitor.monitor`. -/
def monitorRun (chunks : List (List Char)) : List (List Char) :=
  chunks.foldl (fun acc ch => acc ++ monitorChunkLines ch) []

/-! ## Error classifier

`scripts/monitor-errors.py`, `ErrorMonitor.__init__` (lines 20-148) compiles
an ordered table of sixteen regex rules with `re.IGNORECASE`;
`analyze_line` (lines 157-187) scans the table in order and stops at the
first match.  Case-insensitivity is modelled by lowercasing the line and
writing every pattern literal in lowercase.  Each regex in the table is an
alternation of string literals, `X.*Y` literal pairs, and (for the ESP log
rule) `e \(\d+\).*:`, so `re.search` is modelled exactly by substring /
ordered-substring scans. -/

/-- Is `pat` a substring of `l` (regex `search` for a literal pattern)? -/
def containsSeq (pat : List Char) : List Char → Bool
  | [] => pat.isEmpty
  | c :: rest => pat.isPrefixOf (c :: rest) || containsSeq pat rest

/-- Regex `search` of `p1.*p2` (with `.` never needing to cross a newline,
since we match single lines): `p1` matches at some position and `p2` matches
somewhere at or after the end of that occurrence of `p1`. -/
def seqThenAux (p1 p2 : List Char) : List Char → Bool
  | [] => false
  | c :: rest =>
    (p1.isPrefixOf (c :: rest) && containsSeq p2 ((c :: rest).drop p1.length))
      || seqThenAux p1 p2 rest

/-- String-literal versions of the two matchers. -/
def hasSub (pat : String) (l : List Char) : Bool := containsSeq pat.toList l

/-- Matcher for `pat1.*pat2` on a line. -/
def seqThen (pat1 pat2 : String) (l : List Char) : Bool :=
  seqThenAux pat1.toList pat2.toList l

/-- Lowercased character list of an input line (models `re.IGNORECASE`). -/
def toLowerList (s : String) : List Char := s.toList.map Char.toLower

/-- Matcher of rule 1: `Guru Meditation Error|Core.*panicked|PANIC|panic at`. -/
def panicRe (l : List Char) : Bool :=
  hasSub "guru meditation error" l || seqThen "core" "panicked" l
    || hasSub "panic" l || hasSub "panic at" l

/-- Matcher of rule 2:
`StoreProhibited|LoadProhibited|IllegalInstruction|InstrFetchProhibited`. -/
def cpuExcRe (l : List Char) : Bool :=
  hasSub "storeprohibited" l || hasSub "loadprohibited" l
    || hasSub "illegalinstruction" l || hasSub "instrfetchprohibited" l

/-- Matcher of rule 3: `abort\(\) was called|assert failed|assertion.*failed`. -/
def assertionRe (l : List Char) : Bool :=
  hasSub "abort() was called" l || hasSub "assert failed" l
    || seqThen "assertion" "failed" l

/-- Matcher of rule 4:
`heap_caps_malloc.*failed|MALLOC_CAP.*failed|allocation failed`. -/
def memAllocRe (l : List Char) : Bool :=
  seqThen "heap_caps_malloc" "failed" l || seqThen "malloc_cap" "failed" l
    || hasSub "allocation failed" l

/-- Matcher of rule 5: `stack overflow|Stack canary.*corrupted|stack smashing`. -/
def stackOverflowRe (l : List Char) : Bool :=
  hasSub "stack overflow" l || seqThen "stack canary" "corrupted" l
    || hasSub "stack smashing" l

/-- Matcher of rule 6: `CORRUPT HEAP|heap corruption|bad heap`. -/
def heapCorruptionRe (l : List Char) : Bool :=
  hasSub "corrupt heap" l || hasSub "heap corruption" l || hasSub "bad heap" l

/-- Matcher of rule 7: `Task watchdog.*triggered|watchdog timeout|WDT timeout`. -/
def watchdogRe (l : List Char) : Bool :=
  seqThen "task watchdog" "triggered" l || hasSub "watchdog timeout" l
    || hasSub "wdt timeout" l

/-- Matcher of rule 8: `Failed to create task|vTaskCreate.*failed`. -/
def taskCreateRe (l : List Char) : Bool :=
  hasSub "failed to create task" l || seqThen "vtaskcreate" "failed" l

/-- Matcher of rule 9:
`WiFi: Failed|wifi.*disconnect|WIFI_REASON_|Connection lost`. -/
def wifiRe (l : List Char) : Bool :=
  hasSub "wifi: failed" l || seqThen "wifi" "disconnect" l
    || hasSub "wifi_reason_" l || hasSub "connection lost" l

/-- Matcher of rule 10: `httpd.*failed|HTTP server error|Failed to start.*server`. -/
def httpServerRe (l : List Char) : Bool :=
  seqThen "httpd" "failed" l || hasSub "http server error" l
    || seqThen "failed to start" "server" l

/-- Matcher of rule 11: `socket.*failed|bind.*failed|listen.*failed`. -/
def socketRe (l : List Char) : Bool :=
  seqThen "socket" "failed" l || seqThen "bind" "failed" l
    || seqThen "listen" "failed" l

/-- Matcher of rule 12: `Brownout detector|voltage.*low|power.*fail`. -/
def powerRe (l : List Char) : Bool :=
  hasSub "brownout detector" l || seqThen "voltage" "low" l
    || seqThen "power" "fail" l

/-- Matcher of rule 13: `NVS.*error|nvs.*failed|partition.*error`. -/
def storageRe (l : List Char) : Bool :=
  seqThen "nvs" "error" l || seqThen "nvs" "failed" l
    || seqThen "partition" "error" l

/-- Matcher of the ESP log rule at one position: pattern `e \(\d+\).*:`
anchored where the scan currently stands. -/
def espLogAt (l : List Char) : Bool :=
  match l with
  | 'e' :: ' ' :: '(' :: rest =>
    (!(rest.takeWhile Char.isDigit).isEmpty) &&
      (match rest.dropWhile Char.isDigit with
       | ')' :: tail => containsSeq [':'] tail
       | _ => false)
  | _ => false

/-- Matcher of rule 14: `E \(\d+\).*:` searched anywhere in the line. -/
def espLogRe : List Char → Bool
  | [] => false
  | c :: rest => espLogAt (c :: rest) || espLogRe rest

/-- Matcher of rule 15: `ERROR|Error:|error:`. -/
def appErrorRe (l : List Char) : Bool :=
  hasSub "error" l || hasSub "error:" l || hasSub "error:" l

/-- Matcher of rule 16: `FAIL|Failed|failed`. -/
def failureRe (l : List Char) : Bool :=
  hasSub "fail" l || hasSub "failed" l || hasSub "failed" l

/-- One entry of `self.error_patterns`: the compiled regex (modelled as its
matcher on a lowercased line) plus the severity, category and description
strings carried verbatim from the source. -/
structure ErrorRule where
  matcher : List Char → Bool
  severity : String
  category : String
  description : String

/-- The ordered rule table of `ErrorMonitor.__init__`, in source order. -/
def errorPatterns : List ErrorRule :=
  [⟨panicRe, "CRITICAL", "PANIC", "System panic detected"⟩,
   ⟨cpuExcRe, "CRITICAL", "CPU_EXCEPTION", "CPU exception occurred"⟩,
   ⟨assertionRe, "CRITICAL", "ASSERTION", "Assertion failure"⟩,
   ⟨memAllocRe, "HIGH", "MEMORY_ALLOC", "Memory allocation failed"⟩,
   ⟨stackOverflowRe, "CRITICAL", "STACK_OVERFLOW", "Stack overflow detected"⟩,
   ⟨heapCorruptionRe, "CRITICAL", "HEAP_CORRUPTION", "Heap corruption detected"⟩,
   ⟨watchdogRe, "HIGH", "WATCHDOG", "Watchdog timeout"⟩,
   ⟨taskCreateRe, "HIGH", "TASK_CREATE", "Task creation failed"⟩,
   ⟨wifiRe, "MEDIUM", "WIFI", "WiFi connection issue"⟩,
   ⟨httpServerRe, "HIGH", "HTTP_SERVER", "HTTP server error"⟩,
   ⟨socketRe, "MEDIUM", "SOCKET", "Socket operation failed"⟩,
   ⟨powerRe, "HIGH", "POWER", "Power issue detected"⟩,
   ⟨storageRe, "MEDIUM", "STORAGE", "Storage/NVS error"⟩,
   ⟨espLogRe, "MEDIUM", "ESP_LOG", "ESP-IDF error log"⟩,
   ⟨appErrorRe, "LOW", "APP_ERROR", "Application error"⟩,
   ⟨failureRe, "LOW", "FAILURE", "Operation failed"⟩]

/-- The first matching rule for a line, if any: the
`for error_def in self.error_patterns: ... break` scan in `analyze_line`. -/
def analyzeMatch (line : String) : Option ErrorRule :=
  errorPatterns.find? (fun r => r.matcher (toLowerList line))

/-- The categories of the rule table, in order. -/
def codeCategories : List String := errorPatterns.map (fun r => r.category)

/-- Modelled from the spec: the category enumeration the specification
claims for the rule table (spec section 3, ClassificationRule). -/
def specClaimedCategories : List String :=
  ["PANIC", "CPU_EXCEPTION", "ASSERTION", "MEMORY_ALLOC", "STACK_OVERFLOW",
   "HEAP_CORRUPTION", "WATCHDOG", "TASK_CREATE", "WIFI", "HTTP_SERVER",
   "SOCKET", "POWER", "STORAGE", "LOG_ERROR", "APP_ERROR", "GENERIC_FAILURE"]

/-! ### Rolling context buffer

`analyze_line` (lines 157-163) appends each line (paired with a capture
timestamp) to `self.context_lines` and pops the oldest entry once the
length exceeds `self.context_size * 2`; `self.context_size` defaults to 10
(line 155) and is configurable via the `-c` flag (lines 301-314).
`handle_critical_error` (lines 199-207) searches the buffer for the matched
line, leaving `current_index = -1` when it is absent; we model that search
index as an `Option Nat`. -/

/-- Default `self.context_size` from `ErrorMonitor.__init__`. -/
def defaultContextSize : Nat := 10

/-- Append one `(timestamp, line)` entry and trim:
`self.context_lines.append(...)` followed by
`if len(self.context_lines) > self.context_size * 2: self.context_lines.pop(0)`. -/
def contextPush (contextSize : Nat) (buf : List (Nat × String))
    (entry : Nat × String) : List (Nat × String) :=
  let b := buf ++ [entry]
  if contextSize * 2 < b.length then b.drop 1 else b

/-- The context buffer after a whole sequence of `analyze_line` calls,
starting from the empty buffer of `__init__`. -/
def contextRun (contextSize : Nat) (entries : List (Nat × String)) :
    List (Nat × String) :=
  entries.foldl (contextPush contextSize) []

/-- The `current_index` search of `handle_critical_error`: index of the
first buffer entry whose line equals the matched line; `none` models the
`-1` left when no entry matches. -/
def findContextIndex (buf : List (Nat × String)) (line : String) : Option Nat :=
  buf.findIdx? (fun p => p.2 == line)

/-! ## Crash-recovery wait and test sequencing

`tests/python/comprehensive_stress_test.py`, `StressTester.wait_for_device`
(lines 33-43): a loop that checks `is_device_alive()` while the elapsed
time is below `max_wait` (default 30.0), returning `True` on the first
successful probe and `False` once the bound is exceeded; each iteration
ends with `time.sleep(1)`, so time advances by at least one second per
failed probe.  We model the probe outcomes as a function of the iteration
index and the per-iteration time advance as a rational `d i ≥ 1`. -/

/-- Elapsed time at the start of iteration `n`, given per-iteration
advances `d`. -/
def elapsedAt (d : Nat → ℚ) : Nat → ℚ
  | 0 => 0
  | n + 1 => elapsedAt d n + d n

/-- The `wait_for_device` loop with explicit fuel: `none` means the fuel ran
out before the loop decided (never happens with enough fuel, which is the
boundedness theorem), `some true` is the early success return, `some false`
the bound-exceeded return. -/
def waitLoop (probe : Nat → Bool) (d : Nat → ℚ) (maxWait : ℚ) :
    Nat → Nat → ℚ → Option Bool
  | 0, i, e =>
    if maxWait ≤ e then some false
    else if probe i then some true
    else none
  | fuel + 1, i, e =>
    if maxWait ≤ e then some false
    else if probe i then some true
    else waitLoop probe d maxWait fuel (i + 1) (e + d i)

/-- `wait_for_device` with its default bound `max_wait = 30.0`; 31 units of
fuel always suffice because every iteration advances time by at least one
second. -/
def waitForDevice (probe : Nat → Bool) (d : Nat → ℚ) : Option Bool :=
  waitLoop probe d 30 31 0 0

/-- `StressTester.run_all_tests` (lines 303-325): each test runs and its
result is recorded; if the result reports a crash, the supervisor waits for
recovery and stops the whole run when that wait fails.  A test is modelled
by its label together with its `device_crashed` flag and the outcome of the
recovery wait that follows a crash. -/
structure TestRec where
  label : String
  crashed : Bool
  recovered : Bool

/-- The labels of the tests that actually execute, in order: the loop
breaks right after a crashed test whose recovery wait failed. -/
def runTestList : List TestRec → List String
  | [] => []
  | t :: rest =>
    t.label ::
      (if t.crashed && !t.recovered then [] else runTestList rest)

/-! ## Concurrent burst profile

`StressTester.test_concurrent_burst` (lines 108-160).  The module imports
`concurrent.futures` (line 14), but the method's integer parameter
`concurrent` (line 108, default 5) shadows that module inside the body, so
the first loop iteration's attribute lookup
`concurrent.futures.ThreadPoolExecutor` (line 137) is an attribute access
on an `int` and raises `AttributeError` before any request is issued.  The
result dict built on lines 113-122 is therefore returned only when
`burst_count` is 0 (the loop body never runs); with any positive
`burst_count` the call raises. -/

structure BurstResult where
  successful_bursts : Nat
  failed_bursts : Nat
  device_crashed : Bool
  crash_after_burst : Option Nat

/-- A raised Python exception, identified by the offending type and the
attribute that was looked up on it. -/
inductive PyExc where
  | attributeError (typeName attrName : String)

/-- `test_concurrent_burst endpoint concurrent burst_count`: the loop body
dereferences `concurrent.futures` with `concurrent` bound to the integer
parameter, so the first iteration raises `AttributeError` on `int`; only a
zero burst count returns the untouched result dict. -/
def testConcurrentBurst (concurrent burstCount : Nat) :
    Except PyExc BurstResult :=
  if burstCount = 0 then Except.ok ⟨0, 0, false, none⟩
  else Except.error (PyExc.attributeError "int" "futures")

/-! ## Rate escalation

`StressTester.test_memory_exhaustion` (lines 162-233): starting from
`current_rate = 0.5`, each ten-second window runs at the current rate; a
crash detected inside a window returns immediately; otherwise the rate is
multiplied by `acceleration` and the loop breaks once it exceeds the safety
limit of 20 requests per second.  The windows are abstracted to a crash
predicate on the window index; rates are rationals. -/

/-- Outcome of the escalation loop: the list of rates actually tested, and
whether it ended in a detected crash (`true`) or at the safety cap
(`false`). -/
def rateLoop (accel : ℚ) (crash : Nat → Bool) :
    Nat → ℚ → Nat → Option (List ℚ × Bool)
  | 0, _, _ => none
  | fuel + 1, rate, k =>
    if crash k then some ([rate], true)
    else
      let r2 := rate * accel
      if 20 < r2 then some ([rate], false)
      else (rateLoop accel crash fuel r2 (k + 1)).map
        (fun p => (rate :: p.1, p.2))

/-- The escalation loop from its initial rate `0.5`. -/
def rateEscalation (accel : ℚ) (crash : Nat → Bool) (fuel : Nat) :
    Option (List ℚ × Bool) :=
  rateLoop accel crash fuel (1 / 2) 0

/-! ## Device health sampler

`tests/tools/monitoring/monitor_device_health.py`,
`DeviceHealthMonitor.__init__` (lines 34-46), `collect_sample`
(lines 48-91) and `handle_error` (lines 93-103).  The five sample deques
have `maxlen = 300`; a successful 200 probe appends one element to each of
them and updates the success counters, every other outcome goes through
`handle_error`, which also appends one element to each. -/

/-- Cap of the sample deques (`self.max_samples`). -/
def maxSamples : Nat := 300

/-- A JSON value as the sampler sees it: a number, or something
non-numeric (a string, say) on which arithmetic and ordering raise
`TypeError`. -/
inductive PyVal where
  | num (q : ℚ)
  | str (s : String)

/-- A decoded JSON response body: a dict (on which `.get` works) or any
other JSON value (a list, a number, ...) on which `data.get` raises
`AttributeError`. -/
inductive PyBody where
  | dict (entries : List (String × PyVal))
  | nonDict

/-- `collections.deque(maxlen=300)` append: the oldest element is dropped
once the length exceeds the cap. -/
def dequeAppend (l : List PyVal) (x : PyVal) : List PyVal :=
  let m := l ++ [x]
  if maxSamples < m.length then m.drop (m.length - maxSamples) else m

/-- The monitor state: the five parallel sample sequences (Python deques
hold arbitrary objects, so elements are `PyVal`) and the scalar
statistics. -/
structure HealthState where
  timestamps : List PyVal
  free_heap : List PyVal
  uptime : List PyVal
  response_times : List PyVal
  errors : List PyVal
  total_requests : Nat
  failed_requests : Nat
  last_uptime : ℚ
  reboot_count : Nat

/-- Initial state of `DeviceHealthMonitor.__init__`. -/
def initialHealthState : HealthState :=
  ⟨[], [], [], [], [], 0, 0, 0, 0⟩

/-- One probe outcome, as distinguished by `collect_sample`'s control flow:
a 200 response carrying its decoded JSON body and measured response time, a
non-200 status, a timeout, a connection error, or any other exception
raised by the request or by `response.json()` itself (all three land in the
`except` arms before any append). -/
inductive ProbeOutcome where
  | ok (body : PyBody) (responseMs : ℚ)
  | badStatus (code : Nat) (responseMs : ℚ)
  | timedOut
  | connFailed
  | otherFailed

/-- `handle_error`: count the failure and append one element to each of the
five sequences (heap 0, uptime frozen at `last_uptime`, error flag 1). -/
def handleError (t : ℚ) (responseMs : ℚ) (s : HealthState) : HealthState :=
  { s with
    failed_requests := s.failed_requests + 1
    timestamps := dequeAppend s.timestamps (PyVal.num t)
    free_heap := dequeAppend s.free_heap (PyVal.num 0)
    uptime := dequeAppend s.uptime (PyVal.num s.last_uptime)
    response_times := dequeAppend s.response_times (PyVal.num responseMs)
    errors := dequeAppend s.errors (PyVal.num 1) }

/-- `collect_sample` at capture time `t` with outcome `o`.  The 200 branch
is not atomic: `self.timestamps.append(timestamp)` runs first; then
`data.get('free_heap', 0) / 1024` is evaluated, which raises
`AttributeError` on a non-dict body and `TypeError` on a non-numeric
`free_heap` — in both cases the blanket `except Exception` calls
`handle_error(..., timestamp, 0)` on the state whose `timestamps` already
received the extra element.  When all five appends went through but
`uptime_seconds` is non-numeric, the reboot comparison
`current_uptime < self.last_uptime` raises `TypeError` and `handle_error`
appends a second element to every sequence. -/
def collectSample (t : ℚ) (o : ProbeOutcome) (s : HealthState) : HealthState :=
  match o with
  | .ok body rt =>
    match body with
    | .nonDict =>
      handleError t 0
        { s with timestamps := dequeAppend s.timestamps (PyVal.num t) }
    | .dict entries =>
      match (entries.lookup "free_heap").getD (PyVal.num 0) with
      | .str _ =>
        handleError t 0
          { s with timestamps := dequeAppend s.timestamps (PyVal.num t) }
      | .num heapB =>
        let up := (entries.lookup "uptime_seconds").getD (PyVal.num 0)
        let s1 := { s with
          timestamps := dequeAppend s.timestamps (PyVal.num t)
          free_heap := dequeAppend s.free_heap (PyVal.num (heapB / 1024))
          uptime := dequeAppend s.uptime up
          response_times := dequeAppend s.response_times (PyVal.num rt)
          errors := dequeAppend s.errors (PyVal.num 0) }
        match up with
        | .str _ => handleError t 0 s1
        | .num u =>
          { s1 with
            reboot_count := if u < s.last_uptime then s.reboot_count + 1
                            else s.reboot_count
            last_uptime := u
            total_requests := s.total_requests + 1 }
  | .badStatus _ rt => handleError t rt s
  | .timedOut => handleError t 2000 s
  | .connFailed => handleError t 0 s
  | .otherFailed => handleError t 0 s

/-! ## Freeze detection

`tests/tools/diagnostics/debug_freeze.py`, `test_single_endpoint_repeated`
(lines 11-40): requests are issued in a loop; a 200 response records its
completion time in `last_success_time`; when a request raises an exception
and more than 10 seconds have passed since `last_success_time` (which must
already be set), the function declares a freeze and returns immediately.
No count of consecutive failures is kept anywhere. -/

/-- One probe attempt in the freeze-detection loop. -/
inductive Probe3 where
  | ok
  | badStatus (code : Nat)
  | exc

/-- The freeze-detection scan over timestamped attempts: result `true` means
`FREEZE DETECTED` was reported (and the loop returned at that attempt). -/
def freezeScan (last : Option ℚ) : List (ℚ × Probe3) → Bool
  | [] => false
  | (t, r) :: rest =>
    match r with
    | .ok => freezeScan (some t) rest
    | .badStatus _ => freezeScan last rest
    | .exc =>
      match last with
      | none => freezeScan none rest
      | some ts => if 10 < t - ts then true else freezeScan last rest

/-- The most recent success time after processing a prefix of attempts
(mirrors the evolution of `last_success_time`). -/
def lastSuccessTime (last : Option ℚ) : List (ℚ × Probe3) → Option ℚ
  | [] => last
  | (t, r) :: rest =>
    match r with
    | .ok => lastSuccessTime (some t) rest
    | _ => lastSuccessTime last rest

/-! ## Theorems -/

/-! ### Context buffer size (C7, C10) -/

/-- Length bookkeeping for one `contextPush`. -/
theorem contextPush_length (cs : Nat) (buf : List (Nat × String))
    (e : Nat × String) (h : buf.length ≤ cs * 2) :
    (contextPush cs buf e).length = min (buf.length + 1) (cs * 2) := by
  unfold contextPush
  by_cases hc : cs * 2 < (buf ++ [e]).length
  · simp only [hc, if_pos]
    simp only [List.length_drop, List.length_append, List.length_singleton] at *
    omega
  · simp only [hc, if_neg, not_false_iff]
    simp only [List.length_append, List.length_singleton] at *
    omega

/-- Length of the context buffer after folding any entry list onto a buffer
that respects the capacity. -/
theorem contextFold_length (cs : Nat) (entries : List (Nat × String)) :
    ∀ buf : List (Nat × String), buf.length ≤ cs * 2 →
      (entries.foldl (contextPush cs) buf).length
        = min (buf.length + entries.length) (cs * 2) := by
  induction entries with
  | nil => intro buf h; simpa using Nat.min_eq_left h
  | cons e rest ih =>
    intro buf h
    rw [List.foldl_cons]
    have hlen := contextPush_length cs buf e h
    have hle : (contextPush cs buf e).length ≤ cs * 2 := by omega
    rw [ih _ hle, hlen]
    simp only [List.length_cons]
    omega

/-- C7: the rolling context buffer of the error classifier holds at most
`2 * context_size` lines — 20 lines with the default `context_size = 10` —
and it reaches that capacity exactly (its length is the number of lines
seen, capped at 20); the capacity scales with the configured context
size. -/
theorem contextRun_default_capacity (entries : List (Nat × String)) :
    (contextRun defaultContextSize entries).length = min entries.length 20
      ∧ (contextRun defaultContextSize entries).length ≤ 20
      ∧ ∀ cs : Nat, (contextRun cs entries).length
          = min entries.length (cs * 2) := by
  have hgen : ∀ cs : Nat, (contextRun cs entries).length
      = min entries.length (cs * 2) := by
    intro cs
    have := contextFold_length cs entries [] (by simp)
    simpa [contextRun] using this
  refine ⟨?_, ?_, hgen⟩
  · simpa [defaultContextSize] using hgen defaultContextSize
  · rw [hgen defaultContextSize]
    simp only [defaultContextSize]
    omega

/-- The entry just pushed is always present in the buffer when the
configured context size is positive. -/
theorem contextPush_mem (cs : Nat) (buf : List (Nat × String))
    (entry : Nat × String) (hcs : 1 ≤ cs) :
    entry ∈ contextPush cs buf entry := by
  unfold contextPush
  by_cases hc : cs * 2 < (buf ++ [entry]).length
  · simp only [hc, if_pos]
    match buf with
    | [] =>
      exfalso
      simp only [List.nil_append, List.length_singleton] at hc
      omega
    | b :: bt =>
      simp only [List.cons_append, List.drop_succ_cons, List.drop_zero]
      exact List.mem_append_right _ (List.mem_singleton.mpr rfl)
  · simp only [hc, if_neg, not_false_iff]
    exact List.mem_append_right _ (List.mem_singleton.mpr rfl)

/-- C10 (amended): for every positive configured context size (in
particular the default 10), the `current_index` search of
`handle_critical_error` always finds the line that `analyze_line` just
appended: the `-1` branch is unreachable.  (With context size 0 the buffer
is trimmed to empty and the branch is reached; see the counterexample.) -/
theorem findContextIndex_some_of_pos_context (cs : Nat)
    (buf : List (Nat × String)) (entry : Nat × String) (hcs : 1 ≤ cs) :
    (findContextIndex (contextPush cs buf entry) entry.2).isSome = true := by
  rw [findContextIndex, List.findIdx?_isSome]
  exact List.any_of_mem (contextPush_mem cs buf entry hcs)
    (by simp)

/-- C10 witness: at the default context size 10, pushing a panic line onto
the empty buffer leaves it findable. -/
theorem findContextIndex_some_of_pos_context_witness :
    1 ≤ defaultContextSize ∧
      (findContextIndex (contextPush defaultContextSize [] (0, "PANIC at boot"))
        "PANIC at boot").isSome = true :=
  ⟨by decide,
   findContextIndex_some_of_pos_context defaultContextSize [] (0, "PANIC at boot")
     (by decide)⟩

/-- C10 counterexample: with a configured context size of 0 (a value the
`-c` flag accepts), a CRITICAL panic line is matched, yet the trimmed
buffer is empty and the context search comes back empty-handed — the
`current_index = -1` branch is reached. -/
theorem findContextIndex_none_at_zero_context :
    (analyzeMatch "PANIC at boot").map (fun r => r.severity) = some "CRITICAL"
      ∧ contextPush 0 [] (0, "PANIC at boot") = []
      ∧ findContextIndex (contextPush 0 [] (0, "PANIC at boot"))
          "PANIC at boot" = none := by
  decide

/-! ### Rule order and rule table (C2, C8) -/

/-- C2: a log line that matches both the panic rule's pattern and the
generic failure rule's pattern is classified by the panic rule — the first
matching rule in the fixed order — so the emitted incident carries category
PANIC, severity CRITICAL and the panic description, never the generic
failure category. -/
theorem analyzeMatch_panic_precedence (line : String)
    (hp : panicRe (toLowerList line) = true)
    (hf : failureRe (toLowerList line) = true) :
    (analyzeMatch line).map (fun r => (r.category, r.severity, r.description))
      = some ("PANIC", "CRITICAL", "System panic detected") := by
  have hfind : List.find? (fun r => r.matcher (toLowerList line)) errorPatterns
      = some ⟨panicRe, "CRITICAL", "PANIC", "System panic detected"⟩ := by
    unfold errorPatterns
    exact List.find?_cons_of_pos _ hp
  unfold analyzeMatch
  rw [hfind]
  rfl

/-- C2 witness: a concrete line containing both a panic marker and a
failure marker is classified PANIC. -/
theorem analyzeMatch_panic_precedence_witness :
    panicRe (toLowerList "Guru Meditation Error: init failed") = true
      ∧ failureRe (toLowerList "Guru Meditation Error: init failed") = true
      ∧ (analyzeMatch "Guru Meditation Error: init failed").map
          (fun r => (r.category, r.severity, r.description))
        = some ("PANIC", "CRITICAL", "System panic detected") :=
  ⟨by decide, by decide,
   analyzeMatch_panic_precedence "Guru Meditation Error: init failed"
     (by decide) (by decide)⟩

/-- C8 counterexample: the rule table's categories are not the enumeration
the specification claims — the code uses ESP_LOG where the claim says
LOG_ERROR, and FAILURE where the claim says GENERIC_FAILURE. -/
theorem codeCategories_not_spec_enum :
    "ESP_LOG" ∈ codeCategories ∧ "ESP_LOG" ∉ specClaimedCategories
      ∧ "FAILURE" ∈ codeCategories ∧ "FAILURE" ∉ specClaimedCategories
      ∧ "LOG_ERROR" ∉ codeCategories ∧ "GENERIC_FAILURE" ∉ codeCategories := by
  decide

/-- C8 (amended): the rule table assigns exactly the sixteen categories
PANIC, CPU_EXCEPTION, ASSERTION, MEMORY_ALLOC, STACK_OVERFLOW,
HEAP_CORRUPTION, WATCHDOG, TASK_CREATE, WIFI, HTTP_SERVER, SOCKET, POWER,
STORAGE, ESP_LOG, APP_ERROR, FAILURE — in that order — and every severity
it assigns is one of CRITICAL, HIGH, MEDIUM, LOW. -/
theorem codeCategories_exact :
    codeCategories
        = ["PANIC", "CPU_EXCEPTION", "ASSERTION", "MEMORY_ALLOC",
           "STACK_OVERFLOW", "HEAP_CORRUPTION", "WATCHDOG", "TASK_CREATE",
           "WIFI", "HTTP_SERVER", "SOCKET", "POWER", "STORAGE", "ESP_LOG",
           "APP_ERROR", "FAILURE"]
      ∧ errorPatterns.map (fun r => r.severity)
        = ["CRITICAL", "CRITICAL", "CRITICAL", "HIGH", "CRITICAL", "CRITICAL",
           "HIGH", "HIGH", "MEDIUM", "HIGH", "MEDIUM", "HIGH", "MEDIUM",
           "MEDIUM", "LOW", "LOW"]
      ∧ ∀ s ∈ errorPatterns.map (fun r => r.severity),
          s ∈ ["CRITICAL", "HIGH", "MEDIUM", "LOW"] := by
  refine ⟨rfl, rfl, ?_⟩
  decide

/-! ### Health sampler lengths (C9) -/

/-- Length bookkeeping for one bounded-deque append. -/
theorem dequeAppend_length (l : List PyVal) (x : PyVal) :
    (dequeAppend l x).length = min (l.length + 1) maxSamples := by
  simp only [dequeAppend]
  split
  · rename_i h
    simp only [List.length_drop, List.length_append, List.length_singleton] at *
    omega
  · rename_i h
    simp only [List.length_append, List.length_singleton] at *
    omega

/-- A bounded deque never exceeds its cap. -/
theorem dequeAppend_le (l : List PyVal) (x : PyVal) :
    (dequeAppend l x).length ≤ maxSamples := by
  rw [dequeAppend_length]
  omega

/-- Length after two consecutive bounded appends. -/
theorem dequeAppend_twice_length (l : List PyVal) (x y : PyVal) :
    (dequeAppend (dequeAppend l x) y).length
      = min (l.length + 2) maxSamples := by
  rw [dequeAppend_length, dequeAppend_length]
  omega

/-- All five sample sequences of a state have length `m`. -/
def allSampleLens (s2 : HealthState) (m : Nat) : Prop :=
  s2.timestamps.length = m ∧ s2.free_heap.length = m
    ∧ s2.uptime.length = m ∧ s2.response_times.length = m
    ∧ s2.errors.length = m

/-- C9 (amended): on a state whose five sample sequences have equal length
`n`, a `collect_sample` call behaves by outcome — every sequence always
stays within the 300-sample cap; a timeout, connection error, other
pre-append exception, non-200 status, or 200 response whose dict body has
numeric `free_heap` and `uptime_seconds` appends exactly one element to
each sequence (all lengths `min (n+1) 300`); but a 200 response whose
valid-JSON body is not a dict, or whose `free_heap` is non-numeric, raises
after the timestamp append, leaving `timestamps` at `min (n+2) 300` and the
other four at `min (n+1) 300` — unequal whenever `n < 299`; and a 200 dict
response with non-numeric `uptime_seconds` raises at the reboot comparison
after all five appends, so `handle_error` appends a second element to every
sequence (all lengths `min (n+2) 300`). -/
theorem collectSample_lengths_by_outcome (s : HealthState) (t : ℚ)
    (h1 : s.free_heap.length = s.timestamps.length)
    (h2 : s.uptime.length = s.timestamps.length)
    (h3 : s.response_times.length = s.timestamps.length)
    (h4 : s.errors.length = s.timestamps.length) :
    (∀ o : ProbeOutcome,
        (collectSample t o s).timestamps.length ≤ maxSamples
          ∧ (collectSample t o s).free_heap.length ≤ maxSamples
          ∧ (collectSample t o s).uptime.length ≤ maxSamples
          ∧ (collectSample t o s).response_times.length ≤ maxSamples
          ∧ (collectSample t o s).errors.length ≤ maxSamples)
      ∧ allSampleLens (collectSample t ProbeOutcome.timedOut s)
          (min (s.timestamps.length + 1) maxSamples)
      ∧ allSampleLens (collectSample t ProbeOutcome.connFailed s)
          (min (s.timestamps.length + 1) maxSamples)
      ∧ allSampleLens (collectSample t ProbeOutcome.otherFailed s)
          (min (s.timestamps.length + 1) maxSamples)
      ∧ (∀ code rt,
          allSampleLens (collectSample t (ProbeOutcome.badStatus code rt) s)
            (min (s.timestamps.length + 1) maxSamples))
      ∧ (∀ entries rt heapB u,
          (entries.lookup "free_heap").getD (PyVal.num 0) = PyVal.num heapB
            → (entries.lookup "uptime_seconds").getD (PyVal.num 0)
                = PyVal.num u
            → allSampleLens
                (collectSample t (ProbeOutcome.ok (PyBody.dict entries) rt) s)
                (min (s.timestamps.length + 1) maxSamples))
      ∧ (∀ rt,
          (collectSample t (ProbeOutcome.ok PyBody.nonDict rt) s).timestamps.length
              = min (s.timestamps.length + 2) maxSamples
            ∧ (collectSample t (ProbeOutcome.ok PyBody.nonDict rt) s).free_heap.length
                = min (s.timestamps.length + 1) maxSamples
            ∧ (collectSample t (ProbeOutcome.ok PyBody.nonDict rt) s).uptime.length
                = min (s.timestamps.length + 1) maxSamples
            ∧ (collectSample t (ProbeOutcome.ok PyBody.nonDict rt) s).response_times.length
                = min (s.timestamps.length + 1) maxSamples
            ∧ (collectSample t (ProbeOutcome.ok PyBody.nonDict rt) s).errors.length
                = min (s.timestamps.length + 1) maxSamples)
      ∧ (∀ entries rt x,
          (entries.lookup "free_heap").getD (PyVal.num 0) = PyVal.str x
            → (collectSample t (ProbeOutcome.ok (PyBody.dict entries) rt) s).timestamps.length
                  = min (s.timestamps.length + 2) maxSamples
              ∧ (collectSample t (ProbeOutcome.ok (PyBody.dict entries) rt) s).free_heap.length
                  = min (s.timestamps.length + 1) maxSamples
              ∧ (collectSample t (ProbeOutcome.ok (PyBody.dict entries) rt) s).uptime.length
                  = min (s.timestamps.length + 1) maxSamples
              ∧ (collectSample t (ProbeOutcome.ok (PyBody.dict entries) rt) s).response_times.length
                  = min (s.timestamps.length + 1) maxSamples
              ∧ (collectSample t (ProbeOutcome.ok (PyBody.dict entries) rt) s).errors.length
                  = min (s.timestamps.length + 1) maxSamples)
      ∧ (∀ entries rt heapB y,
          (entries.lookup "free_heap").getD (PyVal.num 0) = PyVal.num heapB
            → (entries.lookup "uptime_seconds").getD (PyVal.num 0)
                = PyVal.str y
            → allSampleLens
                (collectSample t (ProbeOutcome.ok (PyBody.dict entries) rt) s)
                (min (s.timestamps.length + 2) maxSamples)) := by
  refine ⟨?_, ?_, ?_, ?_, ?_, ?_, ?_, ?_, ?_⟩
  · intro o
    cases o with
    | ok body rt =>
      cases body with
      | nonDict =>
        simp only [collectSample, handleError]
        exact ⟨dequeAppend_le _ _, dequeAppend_le _ _, dequeAppend_le _ _,
          dequeAppend_le _ _, dequeAppend_le _ _⟩
      | dict entries =>
        rcases hfh : (entries.lookup "free_heap").getD (PyVal.num 0) with q | x
        · rcases hup : (entries.lookup "uptime_seconds").getD (PyVal.num 0)
            with u | y
          · simp only [collectSample, hfh, hup]
            exact ⟨dequeAppend_le _ _, dequeAppend_le _ _, dequeAppend_le _ _,
              dequeAppend_le _ _, dequeAppend_le _ _⟩
          · simp only [collectSample, handleError, hfh, hup]
            exact ⟨dequeAppend_le _ _, dequeAppend_le _ _, dequeAppend_le _ _,
              dequeAppend_le _ _, dequeAppend_le _ _⟩
        · simp only [collectSample, handleError, hfh]
          exact ⟨dequeAppend_le _ _, dequeAppend_le _ _, dequeAppend_le _ _,
            dequeAppend_le _ _, dequeAppend_le _ _⟩
    | badStatus code rt =>
      simp only [collectSample, handleError]
      exact ⟨dequeAppend_le _ _, dequeAppend_le _ _, dequeAppend_le _ _,
        dequeAppend_le _ _, dequeAppend_le _ _⟩
    | timedOut =>
      simp only [collectSample, handleError]
      exact ⟨dequeAppend_le _ _, dequeAppend_le _ _, dequeAppend_le _ _,
        dequeAppend_le _ _, dequeAppend_le _ _⟩
    | connFailed =>
      simp only [collectSample, handleError]
      exact ⟨dequeAppend_le _ _, dequeAppend_le _ _, dequeAppend_le _ _,
        dequeAppend_le _ _, dequeAppend_le _ _⟩
    | otherFailed =>
      simp only [collectSample, handleError]
      exact ⟨dequeAppend_le _ _, dequeAppend_le _ _, dequeAppend_le _ _,
        dequeAppend_le _ _, dequeAppend_le _ _⟩
  · simp only [collectSample, handleError, allSampleLens]
    refine ⟨?_, ?_, ?_, ?_, ?_⟩ <;>
      simp only [dequeAppend_length, h1, h2, h3, h4]
  · simp only [collectSample, handleError, allSampleLens]
    refine ⟨?_, ?_, ?_, ?_, ?_⟩ <;>
      simp only [dequeAppend_length, h1, h2, h3, h4]
  · simp only [collectSample, handleError, allSampleLens]
    refine ⟨?_, ?_, ?_, ?_, ?_⟩ <;>
      simp only [dequeAppend_length, h1, h2, h3, h4]
  · intro code rt
    simp only [collectSample, handleError, allSampleLens]
    refine ⟨?_, ?_, ?_, ?_, ?_⟩ <;>
      simp only [dequeAppend_length, h1, h2, h3, h4]
  · intro entries rt heapB u hfh hup
    simp only [collectSample, hfh, hup, allSampleLens]
    refine ⟨?_, ?_, ?_, ?_, ?_⟩ <;>
      simp only [dequeAppend_length, h1, h2, h3, h4]
  · intro rt
    simp only [collectSample, handleError]
    refine ⟨?_, ?_, ?_, ?_, ?_⟩ <;>
      simp only [dequeAppend_length, h1, h2, h3, h4] <;> omega
  · intro entries rt x hfh
    simp only [collectSample, handleError, hfh]
    refine ⟨?_, ?_, ?_, ?_, ?_⟩ <;>
      simp only [dequeAppend_length, h1, h2, h3, h4] <;> omega
  · intro entries rt heapB y hfh hup
    simp only [collectSample, handleError, hfh, hup, allSampleLens]
    refine ⟨?_, ?_, ?_, ?_, ?_⟩ <;>
      simp only [dequeAppend_length, h1, h2, h3, h4] <;> omega

/-- C9 witness: the empty initial state, exercising a timeout sample and
the partial-append path of a 200 response with a non-dict body. -/
theorem collectSample_lengths_by_outcome_witness :
    initialHealthState.free_heap.length = initialHealthState.timestamps.length
      ∧ allSampleLens (collectSample 0 ProbeOutcome.timedOut initialHealthState)
          (min (initialHealthState.timestamps.length + 1) maxSamples)
      ∧ (collectSample 0 (ProbeOutcome.ok PyBody.nonDict 5)
            initialHealthState).timestamps.length
          = min (initialHealthState.timestamps.length + 2) maxSamples :=
  ⟨rfl,
   (collectSample_lengths_by_outcome initialHealthState 0 rfl rfl rfl rfl).2.1,
   ((collectSample_lengths_by_outcome initialHealthState 0
        rfl rfl rfl rfl).2.2.2.2.2.2.1 5).1⟩

/-- C9 counterexample: a 200 response whose valid JSON body is not a dict
(for example a list) raises at `data.get` after `timestamps.append`, and
`handle_error` then appends to all five sequences — on the empty initial
state the timestamps sequence ends up with two elements while the other
four have one, so the five parallel sequences do not have equal length. -/
theorem collectSample_unequal_lengths :
    (collectSample 0 (ProbeOutcome.ok PyBody.nonDict 5)
        initialHealthState).timestamps.length = 2
      ∧ (collectSample 0 (ProbeOutcome.ok PyBody.nonDict 5)
            initialHealthState).free_heap.length = 1
      ∧ (collectSample 0 (ProbeOutcome.ok PyBody.nonDict 5)
            initialHealthState).uptime.length = 1
      ∧ (collectSample 0 (ProbeOutcome.ok PyBody.nonDict 5)
            initialHealthState).response_times.length = 1
      ∧ (collectSample 0 (ProbeOutcome.ok PyBody.nonDict 5)
            initialHealthState).errors.length = 1
      ∧ (collectSample 0 (ProbeOutcome.ok PyBody.nonDict 5)
            initialHealthState).timestamps.length
          ≠ (collectSample 0 (ProbeOutcome.ok PyBody.nonDict 5)
              initialHealthState).free_heap.length :=
  ⟨rfl, rfl, rfl, rfl, rfl, by decide⟩


/-! ### Concurrent burst profile is unreachable (C5) -/

/-- C5: `test_concurrent_burst` never performs the burst accounting the
claim describes — with any positive burst count the first iteration raises
`AttributeError` (the integer parameter `concurrent` shadows the
`concurrent.futures` module) before a single request is issued, and with a
zero burst count it returns the untouched all-zero result dict.  Evaluated
here at the two schedules `run_all_tests` uses (3 concurrent x 5 bursts and
2 concurrent x 5 bursts) and at a zero burst count. -/
theorem testConcurrentBurst_attribute_error :
    testConcurrentBurst 3 5 = Except.error (PyExc.attributeError "int" "futures")
      ∧ testConcurrentBurst 2 5
          = Except.error (PyExc.attributeError "int" "futures")
      ∧ testConcurrentBurst 3 0 = Except.ok ⟨0, 0, false, none⟩ :=
  ⟨rfl, rfl, rfl⟩

/-! ### Freeze detection (C3) -/

/-- Characterization of the freeze-detection scan, generalized over the
running `last_success_time`: a freeze is reported precisely when some
attempt raises an exception more than ten seconds after the then-current
last success. -/
theorem freezeScan_true_iff (l : List (ℚ × Probe3)) :
    ∀ last, freezeScan last l = true
      ↔ ∃ pre t post, l = pre ++ (t, Probe3.exc) :: post
          ∧ ∃ ts, lastSuccessTime last pre = some ts ∧ 10 < t - ts := by
  induction l with
  | nil =>
    intro last
    simp [freezeScan]
  | cons a rest ih =>
    obtain ⟨t, r⟩ := a
    intro last
    cases r with
    | ok =>
      rw [show freezeScan last ((t, Probe3.ok) :: rest)
            = freezeScan (some t) rest from rfl, ih (some t)]
      constructor
      · rintro ⟨pre, u, post, heq, ts, hl, hgt⟩
        refine ⟨(t, Probe3.ok) :: pre, u, post, by rw [heq]; rfl, ts, ?_, hgt⟩
        simpa [lastSuccessTime] using hl
      · rintro ⟨pre, u, post, heq, ts, hl, hgt⟩
        cases pre with
        | nil => simp at heq
        | cons p pre2 =>
          injection heq with h1 h2
          refine ⟨pre2, u, post, h2, ts, ?_, hgt⟩
          rw [← h1] at hl
          simpa [lastSuccessTime] using hl
    | badStatus code =>
      rw [show freezeScan last ((t, Probe3.badStatus code) :: rest)
            = freezeScan last rest from rfl, ih last]
      constructor
      · rintro ⟨pre, u, post, heq, ts, hl, hgt⟩
        refine ⟨(t, Probe3.badStatus code) :: pre, u, post, by rw [heq]; rfl,
          ts, ?_, hgt⟩
        simpa [lastSuccessTime] using hl
      · rintro ⟨pre, u, post, heq, ts, hl, hgt⟩
        cases pre with
        | nil => simp at heq
        | cons p pre2 =>
          injection heq with h1 h2
          refine ⟨pre2, u, post, h2, ts, ?_, hgt⟩
          rw [← h1] at hl
          simpa [lastSuccessTime] using hl
    | exc =>
      cases last with
      | none =>
        rw [show freezeScan none ((t, Probe3.exc) :: rest)
              = freezeScan none rest from rfl, ih none]
        constructor
        · rintro ⟨pre, u, post, heq, ts, hl, hgt⟩
          refine ⟨(t, Probe3.exc) :: pre, u, post, by rw [heq]; rfl, ts, ?_, hgt⟩
          simpa [lastSuccessTime] using hl
        · rintro ⟨pre, u, post, heq, ts, hl, hgt⟩
          cases pre with
          | nil => simp [lastSuccessTime] at hl
          | cons p pre2 =>
            injection heq with h1 h2
            refine ⟨pre2, u, post, h2, ts, ?_, hgt⟩
            rw [← h1] at hl
            simpa [lastSuccessTime] using hl
      | some ts0 =>
        by_cases hgt0 : 10 < t - ts0
        · rw [show freezeScan (some ts0) ((t, Probe3.exc) :: rest) = true from
            by simp [freezeScan, hgt0]]
          simp only [true_iff]
          exact ⟨[], t, rest, rfl, ts0, rfl, hgt0⟩
        · rw [show freezeScan (some ts0) ((t, Probe3.exc) :: rest)
              = freezeScan (some ts0) rest from by simp [freezeScan, hgt0],
            ih (some ts0)]
          constructor
          · rintro ⟨pre, u, post, heq, ts, hl, hgt⟩
            refine ⟨(t, Probe3.exc) :: pre, u, post, by rw [heq]; rfl, ts, ?_, hgt⟩
            simpa [lastSuccessTime] using hl
          · rintro ⟨pre, u, post, heq, ts, hl, hgt⟩
            cases pre with
            | nil =>
              injection heq with h1 h2
              injection h1 with ht _
              simp only [lastSuccessTime, Option.some.injEq] at hl
              rw [← ht] at hgt
              rw [← hl] at hgt
              exact absurd hgt hgt0
            | cons p pre2 =>
              injection heq with h1 h2
              refine ⟨pre2, u, post, h2, ts, ?_, hgt⟩
              rw [← h1] at hl
              simpa [lastSuccessTime] using hl

/-- C3 (amended): the freeze detector declares a crash exactly when some
probe attempt raises an exception more than 10 seconds after the most
recent successful probe, a prior success being required; no
consecutive-failure count is involved, and the scan returns at the first
such trigger, so at most one crash is declared per run. -/
theorem freezeScan_exc_timeout_iff (attempts : List (ℚ × Probe3)) :
    freezeScan none attempts = true
      ↔ ∃ pre t post, attempts = pre ++ (t, Probe3.exc) :: post
          ∧ ∃ ts, lastSuccessTime none pre = some ts ∧ 10 < t - ts :=
  freezeScan_true_iff attempts none

/-- C3 counterexample: five consecutive probe failures one second apart
(covering every default `k` between 3 and 5) right after a success declare
no crash at all, because only ten seconds without success — not a
consecutive-failure count — triggers the detector. -/
theorem freezeScan_consecutive_failures_no_crash :
    freezeScan none
      [(0, Probe3.ok), (1, Probe3.exc), (2, Probe3.exc), (3, Probe3.exc),
       (4, Probe3.exc), (5, Probe3.exc)] = false := by
  norm_num [freezeScan]

/-! ### Rate escalation (C6) -/

/-- Every rate the escalation loop actually tests stays at or below the
20 req/s safety limit, because the loop breaks after multiplying and before
testing a rate that passed the limit. -/
theorem rateLoop_rates_le_cap (accel : ℚ) (crash : Nat → Bool) :
    ∀ fuel rate k res, rate ≤ 20
      → rateLoop accel crash fuel rate k = some res
      → ∀ r ∈ res.1, r ≤ 20 := by
  intro fuel
  induction fuel with
  | zero =>
    intro rate k res hr h
    simp [rateLoop] at h
  | succ f ih =>
    intro rate k res hr h
    rw [rateLoop] at h
    by_cases hc : crash k = true
    · rw [if_pos hc] at h
      obtain rfl : ([rate], true) = res := Option.some.injEq .. ▸ h
      intro r hrm
      simp only [List.mem_singleton] at hrm
      exact hrm ▸ hr
    · rw [if_neg hc] at h
      by_cases h2 : 20 < rate * accel
      · rw [if_pos h2] at h
        obtain rfl : ([rate], false) = res := Option.some.injEq .. ▸ h
        intro r hrm
        simp only [List.mem_singleton] at hrm
        exact hrm ▸ hr
      · rw [if_neg h2] at h
        obtain ⟨p, hp, hres⟩ := Option.map_eq_some'.mp h
        intro r hrm
        rw [← hres] at hrm
        simp only [List.mem_cons] at hrm
        rcases hrm with rfl | hrm
        · exact hr
        · exact ih (rate * accel) (k + 1) p (le_of_not_lt h2) hp r hrm

/-- With a multiplier above 1 and enough fuel relative to the cap, the
escalation loop always reaches a decision. -/
theorem rateLoop_isSome (accel : ℚ) (crash : Nat → Bool) (ha : 1 < accel) :
    ∀ fuel rate k, 0 < rate → 20 < rate * accel ^ fuel
      → (rateLoop accel crash (fuel + 1) rate k).isSome = true := by
  intro fuel
  induction fuel with
  | zero =>
    intro rate k hpos hcap
    simp only [pow_zero, mul_one] at hcap
    rw [rateLoop]
    by_cases hc : crash k = true
    · simp [hc]
    · have h2 : 20 < rate * accel := by nlinarith
      simp [hc, h2]
  | succ f ih =>
    intro rate k hpos hcap
    rw [rateLoop]
    by_cases hc : crash k = true
    · simp [hc]
    · by_cases h2 : 20 < rate * accel
      · simp [hc, h2]
      · have hpos2 : 0 < rate * accel := by nlinarith
        have hcap2 : 20 < (rate * accel) * accel ^ f := by
          have hps : rate * accel ^ (f + 1) = (rate * accel) * accel ^ f := by
            rw [pow_succ]; ring
          rw [← hps]
          exact hcap
        have hin := ih (rate * accel) (k + 1) hpos2 hcap2
        simp only [hc, if_false, h2, Bool.false_eq_true]
        simpa using hin

/-- For any multiplier above 1 the geometric rate sequence eventually
clears the cap. -/
theorem exists_cap_fuel (accel : ℚ) (ha : 1 < accel) :
    ∃ n : ℕ, 20 < (1 / 2 : ℚ) * accel ^ n := by
  obtain ⟨n, hn⟩ := exists_nat_gt ((39 : ℚ) / (accel - 1))
  refine ⟨n, ?_⟩
  have hd : (0 : ℚ) < accel - 1 := by linarith
  have hb := one_add_mul_le_pow (by linarith : (-2 : ℚ) ≤ accel - 1) n
  have h15 : (1 : ℚ) + (accel - 1) = accel := by ring
  rw [h15] at hb
  have h39 : (39 : ℚ) < n * (accel - 1) := by
    rw [div_lt_iff hd] at hn
    linarith
  nlinarith

/-- C6: for every rate multiplier strictly greater than 1, the rate
escalation loop terminates — it reaches a decision (crash detected, or the
escalated rate exceeded the 20 req/s safety limit) with some finite fuel —
and every rate it tests is at most 20 req/s. -/
theorem rateEscalation_terminates_below_cap (accel : ℚ) (crash : Nat → Bool)
    (ha : 1 < accel) :
    ∃ fuel res, rateEscalation accel crash fuel = some res
      ∧ ∀ r ∈ res.1, r ≤ 20 := by
  obtain ⟨n, hn⟩ := exists_cap_fuel accel ha
  have h1 := rateLoop_isSome accel crash ha n (1 / 2) 0 (by norm_num) hn
  obtain ⟨res, hres⟩ := Option.isSome_iff_exists.mp h1
  exact ⟨n + 1, res, hres,
    rateLoop_rates_le_cap accel crash (n + 1) (1 / 2) 0 res (by norm_num) hres⟩

/-- C6 witness: the source's default multiplier 1.5 with no crash. -/
theorem rateEscalation_terminates_below_cap_witness :
    (1 : ℚ) < 3 / 2
      ∧ ∃ fuel res, rateEscalation (3 / 2) (fun _ => false) fuel = some res
          ∧ ∀ r ∈ res.1, r ≤ 20 :=
  ⟨by norm_num,
   rateEscalation_terminates_below_cap (3 / 2) (fun _ => false) (by norm_num)⟩

/-! ### Bounded recovery wait (C4) -/

/-- Elapsed time is monotone in the iteration index when every iteration
advances the clock. -/
theorem elapsedAt_mono (d : Nat → ℚ) (hd : ∀ i, 1 ≤ d i) :
    ∀ j k, j ≤ k → elapsedAt d j ≤ elapsedAt d k := by
  intro j k hjk
  induction k with
  | zero =>
    obtain rfl : j = 0 := Nat.le_zero.mp hjk
    exact le_refl _
  | succ n ih =>
    rcases Nat.le_succ_iff.mp hjk with h | rfl
    · have h1 := ih h
      have h2 := hd n
      rw [elapsedAt]
      linarith
    · exact le_refl _

/-- With at least one second per iteration, 31 units of fuel are enough for
the 30-second wait loop to reach a verdict. -/
theorem waitLoop_isSome (probe : Nat → Bool) (d : Nat → ℚ) (maxWait : ℚ)
    (hd : ∀ i, 1 ≤ d i) :
    ∀ (fuel i : Nat) (e : ℚ), maxWait ≤ e + (fuel : ℚ)
      → (waitLoop probe d maxWait fuel i e).isSome = true := by
  intro fuel
  induction fuel with
  | zero =>
    intro i e h
    simp only [Nat.cast_zero, add_zero] at h
    rw [waitLoop]
    simp [h]
  | succ f ih =>
    intro i e h
    rw [waitLoop]
    by_cases h1 : maxWait ≤ e
    · simp [h1]
    · by_cases h2 : probe i = true
      · simp [h1, h2]
      · have hnext : maxWait ≤ (e + d i) + (f : ℚ) := by
          have := hd i
          push_cast at h ⊢
          linarith
        simp only [h1, if_false, h2]
        exact ih (i + 1) (e + d i) hnext

/-- Characterization of the wait loop outcome starting at iteration `k`:
it returns `True` exactly when some probe at or after `k` succeeds while
the elapsed time is still below the bound. -/
theorem waitLoop_some_true_iff (probe : Nat → Bool) (d : Nat → ℚ)
    (hd : ∀ i, 1 ≤ d i) :
    ∀ (fuel k : Nat), (30 : ℚ) ≤ elapsedAt d k + (fuel : ℚ)
      → (waitLoop probe d 30 fuel k (elapsedAt d k) = some true
          ↔ ∃ j, k ≤ j ∧ elapsedAt d j < 30 ∧ probe j = true) := by
  intro fuel
  induction fuel with
  | zero =>
    intro k h
    simp only [Nat.cast_zero, add_zero] at h
    rw [waitLoop, if_pos h]
    constructor
    · intro hco; simp at hco
    · rintro ⟨j, hkj, hlt, _⟩
      exact absurd hlt (not_lt.mpr (le_trans h (elapsedAt_mono d hd k j hkj)))
  | succ f ih =>
    intro k h
    rw [waitLoop]
    by_cases h1 : (30 : ℚ) ≤ elapsedAt d k
    · rw [if_pos h1]
      constructor
      · intro hco; simp at hco
      · rintro ⟨j, hkj, hlt, _⟩
        exact absurd hlt (not_lt.mpr (le_trans h1 (elapsedAt_mono d hd k j hkj)))
    · rw [if_neg h1]
      by_cases h2 : probe k = true
      · rw [if_pos h2]
        constructor
        · intro _; exact ⟨k, le_refl k, lt_of_not_le h1, h2⟩
        · intro _; rfl
      · rw [if_neg h2]
        have hfuel : (30 : ℚ) ≤ elapsedAt d (k + 1) + (f : ℚ) := by
          have := hd k
          rw [show elapsedAt d (k + 1) = elapsedAt d k + d k from rfl]
          push_cast at h ⊢
          linarith
        rw [show elapsedAt d k + d k = elapsedAt d (k + 1) from rfl]
        rw [ih (k + 1) hfuel]
        constructor
        · rintro ⟨j, hkj, hlt, hp⟩
          exact ⟨j, le_trans (Nat.le_succ k) hkj, hlt, hp⟩
        · rintro ⟨j, hkj, hlt, hp⟩
          have hne : j ≠ k := fun hjk => h2 (hjk ▸ hp)
          exact ⟨j, Nat.succ_le_of_lt (lt_of_le_of_ne hkj (Ne.symm hne)),
            hlt, hp⟩

/-- A crashed test whose recovery wait failed is the last test that runs:
everything scheduled after it is skipped. -/
theorem runTestList_stops (pre post : List TestRec) (t : TestRec)
    (hc : t.crashed = true) (hr : t.recovered = false) :
    runTestList (pre ++ t :: post) = runTestList (pre ++ [t]) := by
  induction pre with
  | nil => simp [runTestList, hc, hr]
  | cons a pre ih =>
    simp only [List.cons_append, runTestList]
    rw [show List.append pre (t :: post) = pre ++ t :: post from rfl,
        show List.append pre [t] = pre ++ [t] from rfl, ih]

/-- C4: the recovery wait is bounded — the loop always reaches a verdict
within its fuel (at most 31 probes for the 30-second default bound, since
each failed probe costs at least the one-second sleep); it returns success
precisely when some probe succeeds while the elapsed time is below 30
seconds; and when it does not return success, a crashed test is the last
one to run — no further workload executes. -/
theorem waitForDevice_bounded_recovery (probe : Nat → Bool) (d : Nat → ℚ)
    (hd : ∀ i, 1 ≤ d i) :
    (∃ r, waitForDevice probe d = some r)
      ∧ (waitForDevice probe d = some true
          ↔ ∃ i, elapsedAt d i < 30 ∧ probe i = true)
      ∧ ∀ (pre post : List TestRec) (name : String),
          waitForDevice probe d ≠ some true
            → runTestList (pre
                  ++ (⟨name, true, waitForDevice probe d == some true⟩
                      : TestRec) :: post)
              = runTestList (pre
                  ++ [(⟨name, true, waitForDevice probe d == some true⟩
                      : TestRec)]) := by
  refine ⟨?_, ?_, ?_⟩
  · exact Option.isSome_iff_exists.mp
      (waitLoop_isSome probe d 30 hd 31 0 0 (by norm_num))
  · have hiff := waitLoop_some_true_iff probe d hd 31 0 (by
      rw [show elapsedAt d 0 = 0 from rfl]
      norm_num)
    rw [show elapsedAt d 0 = 0 from rfl] at hiff
    rw [waitForDevice, hiff]
    constructor
    · rintro ⟨j, _, hlt, hp⟩; exact ⟨j, hlt, hp⟩
    · rintro ⟨j, hlt, hp⟩; exact ⟨j, Nat.zero_le j, hlt, hp⟩
  · intro pre post name hne
    have hb : (waitForDevice probe d == some true) = false := by
      simpa using hne
    exact runTestList_stops pre post _ rfl hb

/-- C4 witness: cadence exactly one second, probe succeeding at the third
iteration. -/
theorem waitForDevice_bounded_recovery_witness :
    (∀ i : Nat, (1 : ℚ) ≤ (fun _ : Nat => (1 : ℚ)) i)
      ∧ (∃ r, waitForDevice (fun i => decide (i = 2)) (fun _ => 1) = some r)
      ∧ (waitForDevice (fun i => decide (i = 2)) (fun _ => 1) = some true
          ↔ ∃ i, elapsedAt (fun _ => 1) i < 30 ∧ decide (i = 2) = true) :=
  ⟨fun _ => le_refl 1,
   (waitForDevice_bounded_recovery (fun i => decide (i = 2)) (fun _ => 1)
      (fun _ => le_refl 1)).1,
   (waitForDevice_bounded_recovery (fun i => decide (i = 2)) (fun _ => 1)
      (fun _ => le_refl 1)).2.1⟩

/-! ### Chunk-reassembly invariance (C1) -/

/-- Unfolding equation: a leading newline closes an empty line. -/
theorem splitNl_cons_nl (l : List Char) :
    splitNl ('\n' :: l) = ([] :: (splitNl l).1, (splitNl l).2) := by
  simp [splitNl]

/-- Unfolding equation: a leading ordinary character extends the first
complete line when one exists, else the trailing fragment. -/
theorem splitNl_cons_char (c : Char) (l : List Char) (hc : ¬ c = '\n') :
    splitNl (c :: l)
      = (match (splitNl l).1 with
         | [] => ([], c :: (splitNl l).2)
         | x :: xs => ((c :: x) :: xs, (splitNl l).2)) := by
  simp [splitNl, hc]

/-- Splitting a concatenation: the complete lines of `a ++ b` are the
complete lines of `a` followed by the complete lines of `a`'s trailing
fragment re-fed with `b`. -/
theorem splitNl_append (a b : List Char) :
    splitNl (a ++ b)
      = ((splitNl a).1 ++ (splitNl ((splitNl a).2 ++ b)).1,
         (splitNl ((splitNl a).2 ++ b)).2) := by
  induction a with
  | nil => simp [splitNl]
  | cons c a ih =>
    by_cases hc : c = '\n'
    · subst hc
      rw [List.cons_append, splitNl_cons_nl, splitNl_cons_nl, ih]
      simp
    · rw [List.cons_append, splitNl_cons_char c (a ++ b) hc,
          splitNl_cons_char c a hc, ih]
      rcases h1 : (splitNl a).1 with _ | ⟨x, xs⟩
      · rcases h2 : (splitNl ((splitNl a).2 ++ b)).1 with _ | ⟨y, ys⟩ <;>
          simp [h1, h2, List.cons_append,
            splitNl_cons_char c ((splitNl a).2 ++ b) hc]
      · simp [h1, List.cons_append]

/-- The trailing fragment never contains a newline. -/
theorem splitNl_rem_no_nl (l : List Char) : '\n' ∉ (splitNl l).2 := by
  induction l with
  | nil => simp [splitNl]
  | cons c l ih =>
    by_cases hc : c = '\n'
    · subst hc
      rw [splitNl_cons_nl]
      exact ih
    · rw [splitNl_cons_char c l hc]
      rcases h1 : (splitNl l).1 with _ | ⟨x, xs⟩
      · intro hmem
        simp only [h1] at hmem
        rcases List.mem_cons.mp hmem with h | h
        · exact hc h.symm
        · exact ih h
      · simpa [h1] using ih

/-- A newline-free buffer yields no complete line. -/
theorem splitNl_of_no_nl (l : List Char) (h : '\n' ∉ l) :
    splitNl l = ([], l) := by
  induction l with
  | nil => rfl
  | cons c l ih =>
    have hc : ¬ c = '\n' := fun he => h (by rw [he]; exact List.mem_cons_self _ _)
    have hl : '\n' ∉ l := fun hm => h (List.mem_cons_of_mem c hm)
    rw [splitNl_cons_char c l hc, ih hl]

/-- The CR-strip-and-filter step distributes over concatenation. -/
theorem emitLines_append (u v : List (List Char)) :
    emitLines (u ++ v) = emitLines u ++ emitLines v := by
  simp [emitLines, List.filter_append]

/-- What the reader emits over a chunk sequence, starting from any
newline-free buffer, is exactly the emitted lines of the buffer followed by
the concatenated stream. -/
theorem readerFold_emits (chunks : List (List Char)) :
    ∀ (buf : List Char) (acc : List (List Char)), '\n' ∉ buf →
      (chunks.foldl readerStep (buf, acc)).2
        = acc ++ emitLines (splitNl (buf ++ chunks.join)).1 := by
  induction chunks with
  | nil =>
    intro buf acc h
    simp [splitNl_of_no_nl buf h, emitLines]
  | cons ch rest ih =>
    intro buf acc h
    rw [List.foldl_cons]
    rw [show readerStep (buf, acc) ch
          = ((splitNl (buf ++ ch)).2,
             acc ++ emitLines (splitNl (buf ++ ch)).1) from rfl]
    rw [ih _ _ (splitNl_rem_no_nl (buf ++ ch))]
    conv_rhs => rw [show (ch :: rest).join = ch ++ rest.join from rfl,
                    ← List.append_assoc,
                    splitNl_append (buf ++ ch) rest.join]
    simp [emitLines_append, List.append_assoc]

/-- The reader's output is a function of the concatenated stream alone. -/
theorem readerRun_eq_linesOfStream (chunks : List (List Char)) :
    readerRun chunks = linesOfStream chunks.join := by
  have h := readerFold_emits chunks [] [] (by simp)
  simpa [readerRun, linesOfStream] using h

/-- C1 (amended): the reader of `scripts/monitor-telnet.py`, which retains
partial trailing fragments across reads, emits exactly the complete lines
of the concatenated stream (CR-stripped, empty lines dropped): its output
is invariant under re-chunking of the byte stream, including splits
mid-line and mid-delimiter.  (The monitoring-tools reader, which splits
each chunk in isolation, is not invariant; see the counterexample.) -/
theorem readerRun_chunk_invariant (cs1 cs2 : List (List Char))
    (h : cs1.join = cs2.join) :
    readerRun cs1 = readerRun cs2
      ∧ readerRun cs1 = linesOfStream cs1.join := by
  constructor
  · rw [readerRun_eq_linesOfStream, readerRun_eq_linesOfStream, h]
  · exact readerRun_eq_linesOfStream cs1

/-- C1 witness: a split in the middle of a line produces the same output as
the unsplit stream for the fragment-retaining reader. -/
theorem readerRun_chunk_invariant_witness :
    ["hel".toList, "lo\n".toList].join = ["hello\n".toList].join
      ∧ readerRun ["hel".toList, "lo\n".toList] = readerRun ["hello\n".toList]
      ∧ readerRun ["hel".toList, "lo\n".toList]
          = linesOfStream ["hel".toList, "lo\n".toList].join :=
  ⟨by decide,
   (readerRun_chunk_invariant ["hel".toList, "lo\n".toList]
      ["hello\n".toList] (by decide)).1,
   (readerRun_chunk_invariant ["hel".toList, "lo\n".toList]
      ["hello\n".toList] (by decide)).2⟩

/-- C1 counterexample: the monitoring-tools reader
(`tests/tools/monitoring/telnet_monitor.py`) splits every received chunk in
isolation and keeps no fragment, so the same byte stream chunked mid-line
yields different emitted lines ("hel", "lo" instead of "hello"): its output
depends on where the chunk boundaries fall. -/
theorem monitorRun_chunking_dependent :
    ["hel".toList, "lo\n".toList].join = ["hello\n".toList].join
      ∧ monitorRun ["hel".toList, "lo\n".toList]
          ≠ monitorRun ["hello\n".toList] := by
  decide

end Spec2Proof
